import Mathlib

/-!
Verification of `go/utils/remotesrv/main.go` from the dolt repository:
the remote content-store server's bootstrap and lifecycle controller.

The pure address-resolution routine `resolveIP` is embedded directly.
Its two collaborators are embedded as follows:
* `net.SplitHostPort` (Go standard library) is translated faithfully as
  `splitHostPort` below, following the stdlib algorithm.
* the hashicorp go-sockaddr `template.Parse` collaborator is modelled from
  the spec (`templateParse`): a literal string with no template delimiters
  expands to itself; expansion of templated strings depends on host network
  configuration, which is abstracted as a function parameter.

The `run`/`main` entry points are embedded as straight-line functions over
an abstract `World` of collaborator oracles, producing a trace of events
and an outcome, so that ordering and error-path claims can be stated.
-/

/-- Go `net.AddrError`: an address parse error with a reason and the
offending address. -/
structure AddrError where
  why : String
  addr : String
  deriving DecidableEq, Repr

/-- Index of the last occurrence of `c`, accumulator version
(Go `last(hostPort, ':')`). -/
def lastIdxAux (c : Char) : List Char → Nat → Option Nat → Option Nat
  | [], _, acc => acc
  | x :: xs, i, acc => lastIdxAux c xs (i + 1) (if x = c then some i else acc)

/-- Index of the last occurrence of `c` in `l`, if any. -/
def lastIdx (c : Char) (l : List Char) : Option Nat :=
  lastIdxAux c l 0 none

/-- Index of the first occurrence of `c` in `l`, if any
(Go `bytealg.IndexByteString`). -/
def firstIdx (c : Char) : List Char → Option Nat
  | [] => none
  | x :: xs => if x = c then some 0 else (firstIdx c xs).map (· + 1)

/-- Go `net.SplitHostPort` on character lists: splits `host:port` (with
IPv6 bracket handling) into host and port, never validating the port
content. Translated from the Go standard library implementation. -/
def splitHostPortL (hostPort : List Char) : Except AddrError (List Char × List Char) :=
  match lastIdx ':' hostPort with
  | none => .error ⟨"missing port in address", String.mk hostPort⟩
  | some i =>
    if hostPort.getD 0 ' ' = '[' then
      match firstIdx ']' hostPort with
      | none => .error ⟨"missing ']' in address", String.mk hostPort⟩
      | some e =>
        if e + 1 = hostPort.length then
          .error ⟨"missing port in address", String.mk hostPort⟩
        else if e + 1 = i then
          -- host = hostPort[1:e]; j = 1, k = e+1
          if (firstIdx '[' (hostPort.drop 1)).isSome then
            .error ⟨"missing brackets in address", String.mk hostPort⟩
          else if (firstIdx ']' (hostPort.drop (e + 1))).isSome then
            .error ⟨"unexpected ']' in address", String.mk hostPort⟩
          else
            .ok ((hostPort.take e).drop 1, hostPort.drop (i + 1))
        else if hostPort.getD (e + 1) ' ' = ':' then
          .error ⟨"too many colons in address", String.mk hostPort⟩
        else
          .error ⟨"missing port in address", String.mk hostPort⟩
    else
      if (firstIdx ':' (hostPort.take i)).isSome then
        .error ⟨"too many colons in address", String.mk hostPort⟩
      else if (firstIdx '[' hostPort).isSome then
        .error ⟨"missing brackets in address", String.mk hostPort⟩
      else if (firstIdx ']' hostPort).isSome then
        .error ⟨"unexpected ']' in address", String.mk hostPort⟩
      else
        .ok (hostPort.take i, hostPort.drop (i + 1))

/-- Go `net.SplitHostPort` on strings. -/
def splitHostPort (s : String) : Except AddrError (String × String) :=
  (splitHostPortL s.data).map fun hp => (String.mk hp.1, String.mk hp.2)

/-- A template-expansion failure, carrying the original address spec and
the underlying message. -/
structure TemplateError where
  spec : String
  msg : String
  deriving DecidableEq, Repr

/-- `true` when the string contains the `\x7b\x7b` template delimiter of the
go-sockaddr template language. -/
def hasTemplateDelims : List Char → Bool
  | [] => false
  | [_] => false
  | a :: b :: rest => (a = '\x7b' && b = '\x7b') || hasTemplateDelims (b :: rest)

/-- Modelled from the spec: the hashicorp go-sockaddr `template.Parse`
collaborator is an external library, not part of this repository. Per the
spec, a literal address spec containing no template syntax expands to
itself, while a templated spec is expanded against live host network
configuration, abstracted here as the oracle `net`; a template-parse
failure carries the original spec. -/
def templateParse (net : String → Except String String) (s : String) :
    Except TemplateError String :=
  if hasTemplateDelims s.data then
    match net s with
    | .error msg => .error ⟨s, msg⟩
    | .ok r => .ok r
  else
    .ok s

/-- The three failure modes of `resolveIP`, named as in the spec:
template-parse failure, malformed `host:port`, empty host. -/
inductive ResolveError where
  | AddressTemplateError (e : TemplateError)
  | AddressFormatError (e : AddrError)
  | EmptyHostError
  deriving DecidableEq, Repr

/-- `resolveIP` from `main.go`: expand the template, split the result into
host and port, reject an empty host, otherwise return the expanded
string. -/
def resolveIP (net : String → Except String String) (addr : String) :
    Except ResolveError String :=
  match templateParse net addr with
  | .error e => .error (.AddressTemplateError e)
  | .ok resolved =>
    match splitHostPort resolved with
    | .error e => .error (.AddressFormatError e)
    | .ok (host, _) =>
      if host = "" then .error .EmptyHostError
      else .ok resolved

example : splitHostPort "localhost:50051" = .ok ("localhost", "50051") := rfl
example : splitHostPort ":8080" = .ok ("", "8080") := rfl
example : splitHostPort "localhost:" = .ok ("localhost", "") := rfl
example : splitHostPort "nocolon" =
    .error ⟨"missing port in address", "nocolon"⟩ := rfl
example : splitHostPort "[::1]:80" = .ok ("::1", "80") := rfl
example : resolveIP (fun s => .ok s) "localhost:50051" = .ok "localhost:50051" := rfl
example : resolveIP (fun s => .ok s) ":8080" = .error .EmptyHostError := rfl

/-- The parsed command-line flags of `run`, with the defaults from
`main.go`. -/
structure Flags where
  readOnly : Bool
  repoMode : Bool
  dir : String
  grpcAddr : String
  httpAddr : String
  httpHost : String
  deriving DecidableEq, Repr

/-- The default flag values declared in `run`. -/
def defaultFlags : Flags :=
  { readOnly := false, repoMode := false, dir := ""
  , grpcAddr := "localhost:50051", httpAddr := "localhost:80", httpHost := "" }

/-- Abstract handle for the filesystem abstraction
(`filesys.LocalFilesysWithWorkingDir`). -/
structure Filesys where
  id : Nat
  deriving DecidableEq, Repr

/-- Modelled from the spec: the result of the environment-loading
collaborator `env.Load` (defined outside this file's source), reduced to
what `run` consumes: validity, and the chunk store handle extracted via
`HackDatasDatabaseFromDoltDB` / `ChunkStoreFromDatabase`. -/
structure DoltEnv where
  valid : Bool
  store : Nat
  deriving DecidableEq, Repr

/-- Modelled from the spec: the two cache strategies of the `remotesrv`
package (their definitions live outside this file's source): the Singleton
strategy wrapping one pre-opened store, and the lazy directory-keyed
strategy parameterized by the filesystem abstraction. -/
inductive DBCache where
  | SingletonCSCache (cs : Nat)
  | LocalCSCache (fs : Filesys)
  deriving DecidableEq, Repr

/-- Modelled from the spec: `NewLocalCSCache` constructs the lazy
directory-keyed strategy from the filesystem abstraction, opening no
store. -/
def NewLocalCSCache (fs : Filesys) : DBCache :=
  .LocalCSCache fs

/-- The `remotesrv.ServerArgs` configuration assembled by `run`. -/
structure ServerArgs where
  HttpHost : String
  HttpListenAddr : String
  GrpcListenAddr : String
  FS : Filesys
  Cache : DBCache
  ReadOnly : Bool
  deriving DecidableEq, Repr

/-- Abstract handle for a constructed `remotesrv` server. -/
structure Server where
  id : Nat
  deriving DecidableEq, Repr

/-- The collaborator oracles `run` interacts with: template expansion
against host network state, `os.Chdir`, the local-filesystem constructor,
`env.Load`, `remotesrv.NewServer` and `server.Listeners`. -/
structure World where
  net : String → Except String String
  chdir : String → Except String Unit
  localFilesys : Except String Filesys
  envLoad : Filesys → DoltEnv
  newServer : ServerArgs → Except String Server
  listeners : Server → Except String Unit

/-- Observable steps taken by `run`, in program order. `StartServe` is the
launch of the background serving task (`go server.Serve(listeners)`),
`WaitSignal` the blocking wait for a termination signal, `GracefulStop`
the invocation of `server.GracefulStop()`. -/
inductive Event where
  | Chdir (dir : String)
  | ResolveGrpc (spec : String)
  | ResolveHttp (spec : String)
  | LoadEnv
  | SelectCache (c : DBCache)
  | NewServer (args : ServerArgs)
  | BindListeners
  | StartServe
  | WaitSignal
  | GracefulStop
  deriving DecidableEq, Repr

/-- An error returned (not fatally logged) by `run`:
`errors.Wrap(cause, context)`. -/
inductive RunError where
  | wrapped (context : String) (cause : ResolveError)
  deriving DecidableEq, Repr

/-- How `run` ends: returning `nil`, returning a non-nil error, or
terminating the process via `log.Fatal*`. -/
inductive Outcome where
  | ok
  | err (e : RunError)
  | fatal (msg : String)
  deriving DecidableEq, Repr

/-- The `remotesrv.ServerArgs` literal assembled in `run`. -/
def mkArgs (f : Flags) (grpcAddr httpAddr : String) (fs : Filesys) (cache : DBCache) :
    ServerArgs :=
  { HttpHost := f.httpHost, HttpListenAddr := httpAddr, GrpcListenAddr := grpcAddr
  , FS := fs, Cache := cache, ReadOnly := f.readOnly }

/-- Final stage of `run`: assemble `ServerArgs`, construct the server,
bind listeners (both fatal on failure), then serve in the background,
await a signal, gracefully stop, and return `nil`. -/
def runServer (evs : List Event) (f : Flags) (w : World) (grpcAddr httpAddr : String)
    (fs : Filesys) (cache : DBCache) : List Event × Outcome :=
  match w.newServer (mkArgs f grpcAddr httpAddr fs cache) with
  | .error _ =>
    (evs ++ [.NewServer (mkArgs f grpcAddr httpAddr fs cache)],
     .fatal "error creating remotesrv Server")
  | .ok srv =>
    match w.listeners srv with
    | .error _ =>
      (evs ++ [.NewServer (mkArgs f grpcAddr httpAddr fs cache)],
       .fatal "error starting remotesrv Server listeners")
    | .ok _ =>
      (evs ++ [.NewServer (mkArgs f grpcAddr httpAddr fs cache),
               .BindListeners, .StartServe, .WaitSignal, .GracefulStop],
       .ok)

/-- Cache-selection stage of `run`: build the filesystem abstraction
(fatal on failure), then select the cache strategy by `repoMode`: load the
environment and wrap its store in the Singleton strategy (fatal when the
environment is invalid), or construct the lazy directory-keyed strategy. -/
def runCacheSel (evs : List Event) (f : Flags) (w : World) (grpcAddr httpAddr : String) :
    List Event × Outcome :=
  match w.localFilesys with
  | .error _ => (evs, .fatal "could not get cwd path")
  | .ok fs =>
    if f.repoMode then
      let dEnv := w.envLoad fs
      if dEnv.valid then
        runServer (evs ++ [.LoadEnv, .SelectCache (.SingletonCSCache dEnv.store)])
          f w grpcAddr httpAddr fs (.SingletonCSCache dEnv.store)
      else
        (evs ++ [.LoadEnv], .fatal "repo-mode failed to load repository")
    else
      runServer (evs ++ [.SelectCache (NewLocalCSCache fs)])
        f w grpcAddr httpAddr fs (NewLocalCSCache fs)

/-- Address-resolution stage of `run`: resolve the grpc address, then the
http address, returning a wrapped error at the first failure. -/
def runAddrs (evs : List Event) (f : Flags) (w : World) : List Event × Outcome :=
  match resolveIP w.net f.grpcAddr with
  | .error e =>
    (evs ++ [.ResolveGrpc f.grpcAddr], .err (.wrapped "parse grpc addr" e))
  | .ok grpcAddr =>
    match resolveIP w.net f.httpAddr with
    | .error e =>
      (evs ++ [.ResolveGrpc f.grpcAddr, .ResolveHttp f.httpAddr],
       .err (.wrapped "parse http addr" e))
    | .ok httpAddr =>
      runCacheSel (evs ++ [.ResolveGrpc f.grpcAddr, .ResolveHttp f.httpAddr])
        f w grpcAddr httpAddr

/-- `run` from `main.go`: change directory when `--dir` is non-empty
(fatal on failure), then resolve addresses, select the cache strategy,
and run the server lifecycle. -/
def run (f : Flags) (w : World) : List Event × Outcome :=
  if 0 < f.dir.length then
    match w.chdir f.dir with
    | .error _ => ([.Chdir f.dir], .fatal "failed to chdir")
    | .ok _ => runAddrs [.Chdir f.dir] f w
  else
    runAddrs [] f w

/-- How the process exits: status zero, a fatal log inside `run`, or
`main`'s own `log.Fatalln("error: ...")` on a non-nil error from `run`. -/
inductive ProcessExit where
  | exitZero
  | exitFatalInRun (msg : String)
  | exitMainError (e : RunError)
  deriving DecidableEq, Repr

/-- `main` from `main.go` (named `mainFn` since Lean reserves `main` for
program entry points): call `run`; log fatally when it returns a non-nil
error, otherwise exit normally. A `log.Fatal*` inside `run` terminates
the process directly. -/
def mainFn (f : Flags) (w : World) : List Event × ProcessExit :=
  match run f w with
  | (evs, .ok) => (evs, .exitZero)
  | (evs, .err e) => (evs, .exitMainError e)
  | (evs, .fatal m) => (evs, .exitFatalInRun m)

/-- A world in which every collaborator succeeds. -/
def wOK : World :=
  { net := fun s => .ok s
  , chdir := fun _ => .ok ()
  , localFilesys := .ok ⟨0⟩
  , envLoad := fun _ => { valid := true, store := 7 }
  , newServer := fun _ => .ok ⟨1⟩
  , listeners := fun _ => .ok () }

example : (run defaultFlags wOK).2 = .ok := rfl
example : (run defaultFlags wOK).1 =
    [.ResolveGrpc "localhost:50051", .ResolveHttp "localhost:80",
     .SelectCache (NewLocalCSCache ⟨0⟩),
     .NewServer { HttpHost := "", HttpListenAddr := "localhost:80"
                , GrpcListenAddr := "localhost:50051", FS := ⟨0⟩
                , Cache := NewLocalCSCache ⟨0⟩, ReadOnly := false },
     .BindListeners, .StartServe, .WaitSignal, .GracefulStop] := rfl

/-- The trace prefix contributed by the `--dir` handling of `run`. -/
def evChdir (f : Flags) : List Event :=
  if 0 < f.dir.length then [.Chdir f.dir] else []

/-- The events contributed by cache-strategy selection, by `repoMode`. -/
def selEvents (f : Flags) (w : World) (fs : Filesys) : List Event :=
  if f.repoMode then
    [.LoadEnv, .SelectCache (.SingletonCSCache ((w.envLoad fs).store))]
  else
    [.SelectCache (NewLocalCSCache fs)]

/-- The cache strategy `run` selects, by `repoMode`. -/
def selCache (f : Flags) (w : World) (fs : Filesys) : DBCache :=
  if f.repoMode then .SingletonCSCache ((w.envLoad fs).store)
  else NewLocalCSCache fs

/-- Discriminator: is this event a cache selection? -/
def Event.isSelect : Event → Bool
  | .SelectCache _ => true
  | _ => false

/-- Discriminator: is this event the environment load (store open)? -/
def Event.isLoadEnv : Event → Bool
  | .LoadEnv => true
  | _ => false

/-- Discriminator: is this event the graceful-stop invocation? -/
def Event.isStop : Event → Bool
  | .GracefulStop => true
  | _ => false

/-- Lifecycle scanner over a trace: accepts exactly the traces in which
every `StartServe` happens before any stop has begun, and every
`GracefulStop` happens after serving has started, after the signal wait,
and at most once. -/
def lifecycleCheck : List Event → Bool → Bool → Bool → Bool
  | [], _, _, _ => true
  | e :: rest, served, signaled, stopped =>
    match e with
    | .StartServe => !stopped && lifecycleCheck rest true signaled stopped
    | .WaitSignal => lifecycleCheck rest served true stopped
    | .GracefulStop =>
      served && signaled && !stopped && lifecycleCheck rest served signaled true
    | _ => lifecycleCheck rest served signaled stopped

lemma runServer_spec (evs : List Event) (f : Flags) (w : World) (g h : String)
    (fs : Filesys) (c : DBCache) :
    (∃ msg, runServer evs f w g h fs c =
        (evs ++ [.NewServer (mkArgs f g h fs c)], .fatal msg))
  ∨ runServer evs f w g h fs c =
      (evs ++ [.NewServer (mkArgs f g h fs c),
               .BindListeners, .StartServe, .WaitSignal, .GracefulStop], .ok) := by
  unfold runServer
  cases hs : w.newServer (mkArgs f g h fs c) with
  | error e => exact Or.inl ⟨_, rfl⟩
  | ok srv =>
    dsimp only
    cases hl : w.listeners srv with
    | error e => exact Or.inl ⟨_, rfl⟩
    | ok u => exact Or.inr rfl

lemma runCacheSel_spec (evs : List Event) (f : Flags) (w : World) (g h : String) :
    ((∃ e, w.localFilesys = .error e) ∧ runCacheSel evs f w g h =
        (evs, .fatal "could not get cwd path"))
  ∨ (∃ fs, w.localFilesys = .ok fs ∧ f.repoMode = true ∧ (w.envLoad fs).valid = false ∧
      runCacheSel evs f w g h =
        (evs ++ [.LoadEnv], .fatal "repo-mode failed to load repository"))
  ∨ (∃ fs, w.localFilesys = .ok fs ∧ (f.repoMode = true → (w.envLoad fs).valid = true) ∧
      runCacheSel evs f w g h =
        runServer (evs ++ selEvents f w fs) f w g h fs (selCache f w fs)) := by
  unfold runCacheSel
  cases hfs : w.localFilesys with
  | error e => exact Or.inl ⟨⟨e, rfl⟩, rfl⟩
  | ok fs =>
    by_cases hr : f.repoMode
    · by_cases hv : (w.envLoad fs).valid
      · refine Or.inr (Or.inr ⟨fs, rfl, fun _ => hv, ?_⟩)
        simp [hr, hv, selEvents, selCache]
      · refine Or.inr (Or.inl ⟨fs, rfl, hr, by simpa using hv, ?_⟩)
        simp [hr, hv]
    · refine Or.inr (Or.inr ⟨fs, rfl, fun hc => absurd hc hr, ?_⟩)
      simp [hr, selEvents, selCache]

lemma runAddrs_spec (evs : List Event) (f : Flags) (w : World) :
    (∃ e, resolveIP w.net f.grpcAddr = .error e ∧ runAddrs evs f w =
        (evs ++ [.ResolveGrpc f.grpcAddr], .err (.wrapped "parse grpc addr" e)))
  ∨ (∃ g e, resolveIP w.net f.grpcAddr = .ok g ∧ resolveIP w.net f.httpAddr = .error e ∧
      runAddrs evs f w =
        (evs ++ [.ResolveGrpc f.grpcAddr, .ResolveHttp f.httpAddr],
         .err (.wrapped "parse http addr" e)))
  ∨ (∃ g h, resolveIP w.net f.grpcAddr = .ok g ∧ resolveIP w.net f.httpAddr = .ok h ∧
      runAddrs evs f w =
        runCacheSel (evs ++ [.ResolveGrpc f.grpcAddr, .ResolveHttp f.httpAddr]) f w g h) := by
  unfold runAddrs
  cases hg : resolveIP w.net f.grpcAddr with
  | error e => exact Or.inl ⟨e, rfl, rfl⟩
  | ok g =>
    cases hh : resolveIP w.net f.httpAddr with
    | error e => exact Or.inr (Or.inl ⟨g, e, rfl, rfl, rfl⟩)
    | ok h => exact Or.inr (Or.inr ⟨g, h, rfl, rfl, rfl⟩)

lemma run_eq_runAddrs (f : Flags) (w : World)
    (hc : 0 < f.dir.length → w.chdir f.dir = .ok ()) :
    run f w = runAddrs (evChdir f) f w := by
  unfold run evChdir
  by_cases hd : 0 < f.dir.length
  · simp only [hd, if_true]
    rw [hc hd]
  · simp only [hd, if_false]

lemma run_chdir_fatal (f : Flags) (w : World) (e : String)
    (hd : 0 < f.dir.length) (hc : w.chdir f.dir = .error e) :
    run f w = ([.Chdir f.dir], .fatal "failed to chdir") := by
  unfold run
  simp only [hd, if_true, hc]

lemma run_spec_from_addrs (f : Flags) (w : World)
    (hrw : run f w = runAddrs (evChdir f) f w) :
    (∃ e, resolveIP w.net f.grpcAddr = .error e ∧
       run f w = (evChdir f ++ [.ResolveGrpc f.grpcAddr],
                  .err (.wrapped "parse grpc addr" e)))
  ∨ (∃ g e, resolveIP w.net f.grpcAddr = .ok g ∧ resolveIP w.net f.httpAddr = .error e ∧
       run f w = (evChdir f ++ [.ResolveGrpc f.grpcAddr, .ResolveHttp f.httpAddr],
                  .err (.wrapped "parse http addr" e)))
  ∨ ((∃ e, w.localFilesys = .error e) ∧
       run f w = (evChdir f ++ [.ResolveGrpc f.grpcAddr, .ResolveHttp f.httpAddr],
                  .fatal "could not get cwd path"))
  ∨ (∃ fs, w.localFilesys = .ok fs ∧ f.repoMode = true ∧ (w.envLoad fs).valid = false ∧
       run f w = (evChdir f ++ [.ResolveGrpc f.grpcAddr, .ResolveHttp f.httpAddr, .LoadEnv],
                  .fatal "repo-mode failed to load repository"))
  ∨ (∃ g h fs msg, w.localFilesys = .ok fs ∧
       (f.repoMode = true → (w.envLoad fs).valid = true) ∧
       run f w = (evChdir f ++ [.ResolveGrpc f.grpcAddr, .ResolveHttp f.httpAddr]
                    ++ selEvents f w fs
                    ++ [.NewServer (mkArgs f g h fs (selCache f w fs))],
                  .fatal msg))
  ∨ (∃ g h fs, w.localFilesys = .ok fs ∧ resolveIP w.net f.grpcAddr = .ok g ∧
       resolveIP w.net f.httpAddr = .ok h ∧
       (f.repoMode = true → (w.envLoad fs).valid = true) ∧
       run f w = (evChdir f ++ [.ResolveGrpc f.grpcAddr, .ResolveHttp f.httpAddr]
                    ++ selEvents f w fs
                    ++ [.NewServer (mkArgs f g h fs (selCache f w fs)),
                        .BindListeners, .StartServe, .WaitSignal, .GracefulStop],
                  .ok)) := by
  rcases runAddrs_spec (evChdir f) f w with
    ⟨e, hg, heq⟩ | ⟨g, e, hg, hh, heq⟩ | ⟨g, h, hg, hh, heq⟩
  · exact Or.inl ⟨e, hg, by rw [hrw, heq]⟩
  · exact Or.inr (Or.inl ⟨g, e, hg, hh, by rw [hrw, heq]⟩)
  · rcases runCacheSel_spec (evChdir f ++ [.ResolveGrpc f.grpcAddr, .ResolveHttp f.httpAddr])
        f w g h with ⟨hf, heq2⟩ | ⟨fs, hfs, hr, hv, heq2⟩ | ⟨fs, hfs, hv, heq2⟩
    · exact Or.inr (Or.inr (Or.inl ⟨hf, by rw [hrw, heq, heq2]⟩))
    · refine Or.inr (Or.inr (Or.inr (Or.inl ⟨fs, hfs, hr, hv, ?_⟩)))
      rw [hrw, heq, heq2]
      simp [List.append_assoc]
    · rcases runServer_spec
          (evChdir f ++ [.ResolveGrpc f.grpcAddr, .ResolveHttp f.httpAddr] ++ selEvents f w fs)
          f w g h fs (selCache f w fs) with ⟨msg, heq3⟩ | heq3
      · refine Or.inr (Or.inr (Or.inr (Or.inr (Or.inl ⟨g, h, fs, msg, hfs, hv, ?_⟩))))
        rw [hrw, heq]
        rw [show evChdir f ++ [Event.ResolveGrpc f.grpcAddr, Event.ResolveHttp f.httpAddr]
              ++ selEvents f w fs
            = (evChdir f ++ [Event.ResolveGrpc f.grpcAddr, Event.ResolveHttp f.httpAddr])
              ++ selEvents f w fs by simp [List.append_assoc]] at heq3
        rw [heq2, heq3]
      · refine Or.inr (Or.inr (Or.inr (Or.inr (Or.inr ⟨g, h, fs, hfs, hg, hh, hv, ?_⟩))))
        rw [hrw, heq]
        rw [show evChdir f ++ [Event.ResolveGrpc f.grpcAddr, Event.ResolveHttp f.httpAddr]
              ++ selEvents f w fs
            = (evChdir f ++ [Event.ResolveGrpc f.grpcAddr, Event.ResolveHttp f.httpAddr])
              ++ selEvents f w fs by simp [List.append_assoc]] at heq3
        rw [heq2, heq3]

lemma run_spec (f : Flags) (w : World) :
    (∃ e, 0 < f.dir.length ∧ w.chdir f.dir = .error e ∧
       run f w = ([.Chdir f.dir], .fatal "failed to chdir"))
  ∨ (∃ e, resolveIP w.net f.grpcAddr = .error e ∧
       run f w = (evChdir f ++ [.ResolveGrpc f.grpcAddr],
                  .err (.wrapped "parse grpc addr" e)))
  ∨ (∃ g e, resolveIP w.net f.grpcAddr = .ok g ∧ resolveIP w.net f.httpAddr = .error e ∧
       run f w = (evChdir f ++ [.ResolveGrpc f.grpcAddr, .ResolveHttp f.httpAddr],
                  .err (.wrapped "parse http addr" e)))
  ∨ ((∃ e, w.localFilesys = .error e) ∧
       run f w = (evChdir f ++ [.ResolveGrpc f.grpcAddr, .ResolveHttp f.httpAddr],
                  .fatal "could not get cwd path"))
  ∨ (∃ fs, w.localFilesys = .ok fs ∧ f.repoMode = true ∧ (w.envLoad fs).valid = false ∧
       run f w = (evChdir f ++ [.ResolveGrpc f.grpcAddr, .ResolveHttp f.httpAddr, .LoadEnv],
                  .fatal "repo-mode failed to load repository"))
  ∨ (∃ g h fs msg, w.localFilesys = .ok fs ∧
       (f.repoMode = true → (w.envLoad fs).valid = true) ∧
       run f w = (evChdir f ++ [.ResolveGrpc f.grpcAddr, .ResolveHttp f.httpAddr]
                    ++ selEvents f w fs
                    ++ [.NewServer (mkArgs f g h fs (selCache f w fs))],
                  .fatal msg))
  ∨ (∃ g h fs, w.localFilesys = .ok fs ∧ resolveIP w.net f.grpcAddr = .ok g ∧
       resolveIP w.net f.httpAddr = .ok h ∧
       (f.repoMode = true → (w.envLoad fs).valid = true) ∧
       run f w = (evChdir f ++ [.ResolveGrpc f.grpcAddr, .ResolveHttp f.httpAddr]
                    ++ selEvents f w fs
                    ++ [.NewServer (mkArgs f g h fs (selCache f w fs)),
                        .BindListeners, .StartServe, .WaitSignal, .GracefulStop],
                  .ok)) := by
  by_cases hd : 0 < f.dir.length
  · cases hc : w.chdir f.dir with
    | error e => exact Or.inl ⟨e, hd, rfl, run_chdir_fatal f w e hd hc⟩
    | ok u =>
      have hrw := run_eq_runAddrs f w (fun _ => by cases u; exact hc)
      exact Or.inr (run_spec_from_addrs f w hrw)
  · have hrw := run_eq_runAddrs f w (fun hcontra => absurd hcontra hd)
    exact Or.inr (run_spec_from_addrs f w hrw)

/-- C1: for every address spec string containing no template syntax that is
in valid `host:port` form (Go `SplitHostPort` succeeds) with a non-empty
host component, `resolveIP` succeeds and returns exactly the input string,
unchanged — for any network state. -/
theorem literal_addr_unchanged_C1 (net : String → Except String String)
    (addr host port : String)
    (hlit : hasTemplateDelims addr.data = false)
    (hsplit : splitHostPort addr = .ok (host, port))
    (hhost : host ≠ "") :
    resolveIP net addr = .ok addr := by
  simp [resolveIP, templateParse, hlit, hsplit, hhost]

/-- Witness for C1 at the default grpc address, under a network oracle that
would fail if it were ever consulted. -/
theorem literal_addr_unchanged_C1_witness :
    resolveIP (fun _ => .error "network down") "localhost:50051" =
      .ok "localhost:50051" :=
  literal_addr_unchanged_C1 (fun _ => .error "network down")
    "localhost:50051" "localhost" "50051" rfl rfl (by decide)

/-- C2: an address spec whose template expansion yields an empty host
component fails with `EmptyHostError` rather than succeeding; and no
address whose expansion has a bare port (empty host) is ever accepted. -/
theorem empty_host_rejected_C2 (net : String → Except String String) (addr : String) :
    (∀ r p, templateParse net addr = .ok r → splitHostPort r = .ok ("", p) →
       resolveIP net addr = .error .EmptyHostError)
  ∧ (∀ r, resolveIP net addr = .ok r →
       ∃ h p, splitHostPort r = .ok (h, p) ∧ h ≠ "") := by
  constructor
  · intro r p htp hsp
    simp [resolveIP, htp, hsp]
  · intro r hok
    unfold resolveIP at hok
    cases htp : templateParse net addr with
    | error e => rw [htp] at hok; exact absurd hok (by simp)
    | ok res =>
      rw [htp] at hok
      dsimp only at hok
      cases hsp : splitHostPort res with
      | error e => rw [hsp] at hok; exact absurd hok (by simp)
      | ok hp =>
        obtain ⟨h, p⟩ := hp
        rw [hsp] at hok
        dsimp only at hok
        by_cases hh : h = ""
        · rw [if_pos hh] at hok
          exact absurd hok (by simp)
        · rw [if_neg hh] at hok
          have hr : res = r := by injection hok
          exact ⟨h, p, by rw [← hr]; exact hsp, hh⟩

/-- Witness for C2 at the spec `:8080` with the identity network oracle. -/
theorem empty_host_rejected_C2_witness :
    resolveIP (fun s => .ok s) ":8080" = .error .EmptyHostError :=
  (empty_host_rejected_C2 (fun s => .ok s) ":8080").1 ":8080" "8080" rfl rfl

/-- C3: `resolveIP` performs its checks in a fixed order: a template-parse
failure yields `AddressTemplateError` carrying the original spec; otherwise
a split failure of the expanded string yields `AddressFormatError`;
otherwise an empty host yields `EmptyHostError`; otherwise it succeeds —
so exactly one of the three failures, or success, occurs. -/
theorem resolve_order_C3 (net : String → Except String String) (addr : String) :
    (∀ e, templateParse net addr = .error e →
       resolveIP net addr = .error (.AddressTemplateError e) ∧ e.spec = addr)
  ∧ (∀ r e, templateParse net addr = .ok r → splitHostPort r = .error e →
       resolveIP net addr = .error (.AddressFormatError e))
  ∧ (∀ r p, templateParse net addr = .ok r → splitHostPort r = .ok ("", p) →
       resolveIP net addr = .error .EmptyHostError)
  ∧ (∀ r h p, templateParse net addr = .ok r → splitHostPort r = .ok (h, p) → h ≠ "" →
       resolveIP net addr = .ok r) := by
  refine ⟨?_, ?_, ?_, ?_⟩
  · intro e he
    refine ⟨by simp [resolveIP, he], ?_⟩
    unfold templateParse at he
    by_cases hd : hasTemplateDelims addr.data = true
    · rw [if_pos hd] at he
      cases hn : net addr with
      | error m =>
        rw [hn] at he
        have : (⟨addr, m⟩ : TemplateError) = e := by injection he
        rw [← this]
      | ok r => rw [hn] at he; exact absurd he (by simp)
    · rw [if_neg hd] at he
      exact absurd he (by simp)
  · intro r e htp hsp
    simp [resolveIP, htp, hsp]
  · intro r p htp hsp
    simp [resolveIP, htp, hsp]
  · intro r h p htp hsp hh
    simp [resolveIP, htp, hsp, hh]

/-- Witness for C3 on a templated spec under a network oracle with no
usable configuration: the failure is a template error carrying the spec. -/
theorem resolve_order_C3_witness :
    resolveIP (fun _ => .error "no usable address") "\x7b\x7bGetPrivateIP\x7d\x7d:80" =
      .error (.AddressTemplateError ⟨"\x7b\x7bGetPrivateIP\x7d\x7d:80", "no usable address"⟩)
  ∧ (⟨"\x7b\x7bGetPrivateIP\x7d\x7d:80", "no usable address"⟩ : TemplateError).spec =
      "\x7b\x7bGetPrivateIP\x7d\x7d:80" :=
  (resolve_order_C3 (fun _ => .error "no usable address")
    "\x7b\x7bGetPrivateIP\x7d\x7d:80").1
    ⟨"\x7b\x7bGetPrivateIP\x7d\x7d:80", "no usable address"⟩ rfl

/-- C8: `resolveIP` never validates the port component: whenever the
expanded spec splits with a non-empty host it succeeds, with no condition
whatsoever on the port (empty or non-numeric included); and every failure
is one of template-parse failure, split failure, or empty host. -/
theorem port_not_validated_C8 (net : String → Except String String) (addr : String) :
    (∀ r h p, templateParse net addr = .ok r → splitHostPort r = .ok (h, p) → h ≠ "" →
       resolveIP net addr = .ok r)
  ∧ (∀ e, resolveIP net addr = .error e →
       (∃ te, e = .AddressTemplateError te ∧ templateParse net addr = .error te)
     ∨ (∃ r fe, templateParse net addr = .ok r ∧ splitHostPort r = .error fe ∧
          e = .AddressFormatError fe)
     ∨ (∃ r p, templateParse net addr = .ok r ∧ splitHostPort r = .ok ("", p) ∧
          e = .EmptyHostError)) := by
  constructor
  · intro r h p htp hsp hh
    simp [resolveIP, htp, hsp, hh]
  · intro e herr
    unfold resolveIP at herr
    cases htp : templateParse net addr with
    | error te =>
      rw [htp] at herr
      have : ResolveError.AddressTemplateError te = e := by injection herr
      exact Or.inl ⟨te, this.symm, rfl⟩
    | ok res =>
      rw [htp] at herr
      dsimp only at herr
      cases hsp : splitHostPort res with
      | error fe =>
        rw [hsp] at herr
        have : ResolveError.AddressFormatError fe = e := by injection herr
        exact Or.inr (Or.inl ⟨res, fe, rfl, hsp, this.symm⟩)
      | ok hp =>
        obtain ⟨h, p⟩ := hp
        rw [hsp] at herr
        dsimp only at herr
        by_cases hh : h = ""
        · rw [if_pos hh] at herr
          have : ResolveError.EmptyHostError = e := by injection herr
          exact Or.inr (Or.inr ⟨res, p, rfl, by rw [← hh]; exact hsp, this.symm⟩)
        · rw [if_neg hh] at herr
          exact absurd herr (by simp)

/-- Witness for C8: an empty port and a non-numeric port are both
accepted. -/
theorem port_not_validated_C8_witness :
    resolveIP (fun s => .ok s) "localhost:" = .ok "localhost:"
  ∧ resolveIP (fun s => .ok s) "localhost:notaport" = .ok "localhost:notaport" :=
  ⟨(port_not_validated_C8 (fun s => .ok s) "localhost:").1
      "localhost:" "localhost" "" rfl rfl (by decide),
   (port_not_validated_C8 (fun s => .ok s) "localhost:notaport").1
      "localhost:notaport" "localhost" "notaport" rfl rfl (by decide)⟩

lemma selEvents_repo_true (f : Flags) (w : World) (fs : Filesys) (hr : f.repoMode = true) :
    selEvents f w fs =
      [.LoadEnv, .SelectCache (.SingletonCSCache ((w.envLoad fs).store))] := by
  unfold selEvents; rw [hr]; simp

lemma selEvents_repo_false (f : Flags) (w : World) (fs : Filesys) (hr : f.repoMode = false) :
    selEvents f w fs = [.SelectCache (NewLocalCSCache fs)] := by
  unfold selEvents; rw [hr]; simp

lemma selCache_repo_true (f : Flags) (w : World) (fs : Filesys) (hr : f.repoMode = true) :
    selCache f w fs = .SingletonCSCache ((w.envLoad fs).store) := by
  unfold selCache; rw [hr]; simp

lemma selCache_repo_false (f : Flags) (w : World) (fs : Filesys) (hr : f.repoMode = false) :
    selCache f w fs = NewLocalCSCache fs := by
  unfold selCache; rw [hr]; simp

lemma mem_selEvents {e : Event} {f : Flags} {w : World} {fs : Filesys}
    (h : e ∈ selEvents f w fs) :
    (f.repoMode = true ∧
      (e = .LoadEnv ∨ e = .SelectCache (.SingletonCSCache ((w.envLoad fs).store))))
  ∨ (f.repoMode = false ∧ e = .SelectCache (NewLocalCSCache fs)) := by
  cases hr : f.repoMode with
  | true => rw [selEvents_repo_true f w fs hr] at h; simp at h; exact Or.inl ⟨rfl, h⟩
  | false => rw [selEvents_repo_false f w fs hr] at h; simp at h; exact Or.inr ⟨rfl, h⟩

lemma mem_evChdir {e : Event} {f : Flags} (h : e ∈ evChdir f) :
    e = .Chdir f.dir ∧ 0 < f.dir.length := by
  unfold evChdir at h
  by_cases hd : 0 < f.dir.length
  · rw [if_pos hd] at h; simp at h; exact ⟨h, hd⟩
  · rw [if_neg hd] at h; simp at h

/-- Discriminator: is this event anything other than a chdir step? -/
def Event.notChdir : Event → Bool
  | .Chdir _ => false
  | _ => true

lemma notChdir_of_selEvents {e : Event} {f : Flags} {w : World} {fs : Filesys}
    (h : e ∈ selEvents f w fs) : Event.notChdir e = true := by
  rcases mem_selEvents h with ⟨_, h | h⟩ | ⟨_, h⟩ <;> subst h <;> rfl

lemma run_trace_not_chdir (f : Flags) (w : World) {e : Event} (h : e ∈ (run f w).1) :
    (e = .Chdir f.dir ∧ 0 < f.dir.length) ∨ Event.notChdir e = true := by
  rcases run_spec f w with ⟨x, hd, _, heq⟩ | ⟨x, _, heq⟩ | ⟨g, x, _, _, heq⟩ |
    ⟨_, heq⟩ | ⟨fs, _, _, _, heq⟩ | ⟨g, h2, fs, msg, _, _, heq⟩ |
    ⟨g, h2, fs, _, _, _, _, heq⟩ <;> rw [heq] at h <;> simp at h
  · exact Or.inl ⟨h, hd⟩
  · rcases h with h | h
    · exact Or.inl (mem_evChdir h)
    · subst h; exact Or.inr rfl
  · rcases h with h | h | h
    · exact Or.inl (mem_evChdir h)
    · subst h; exact Or.inr rfl
    · subst h; exact Or.inr rfl
  · rcases h with h | h | h
    · exact Or.inl (mem_evChdir h)
    · subst h; exact Or.inr rfl
    · subst h; exact Or.inr rfl
  · rcases h with h | h | h | h
    · exact Or.inl (mem_evChdir h)
    · subst h; exact Or.inr rfl
    · subst h; exact Or.inr rfl
    · subst h; exact Or.inr rfl
  · rcases h with h | h | h | h | h
    · exact Or.inl (mem_evChdir h)
    · subst h; exact Or.inr rfl
    · subst h; exact Or.inr rfl
    · exact Or.inr (notChdir_of_selEvents h)
    · subst h; exact Or.inr rfl
  · rcases h with h | h | h | h | h | h | h | h | h
    · exact Or.inl (mem_evChdir h)
    · subst h; exact Or.inr rfl
    · subst h; exact Or.inr rfl
    · exact Or.inr (notChdir_of_selEvents h)
    · subst h; exact Or.inr rfl
    · subst h; exact Or.inr rfl
    · subst h; exact Or.inr rfl
    · subst h; exact Or.inr rfl
    · subst h; exact Or.inr rfl

/-- C10: with the default empty `--dir` flag the working directory is never
changed: no chdir step occurs; and any chdir step that does occur is for
the non-empty flag value itself. -/
theorem dir_flag_chdir_C10 (f : Flags) (w : World) :
    (f.dir = "" → ∀ d, Event.Chdir d ∉ (run f w).1)
  ∧ (∀ d, Event.Chdir d ∈ (run f w).1 → 0 < f.dir.length ∧ d = f.dir) := by
  have hchar : ∀ d, Event.Chdir d ∈ (run f w).1 → 0 < f.dir.length ∧ d = f.dir := by
    intro d hmem
    rcases run_trace_not_chdir f w hmem with ⟨he, hd⟩ | he
    · exact ⟨hd, by injection he⟩
    · exact absurd he (by simp [Event.notChdir])
  refine ⟨?_, hchar⟩
  intro hempty d hmem
  have := (hchar d hmem).1
  rw [hempty] at this
  exact absurd this (by decide)

/-- Witness for C10: with the default flags no chdir step occurs. -/
theorem dir_flag_chdir_C10_witness :
    Event.Chdir "/somewhere" ∉ (run defaultFlags wOK).1 :=
  (dir_flag_chdir_C10 defaultFlags wOK).1 rfl "/somewhere"

lemma not_mem_evChdir {e : Event} {f : Flags} (hne : Event.notChdir e = true) :
    e ∉ evChdir f := by
  intro h
  rw [(mem_evChdir h).1] at hne
  simp [Event.notChdir] at hne

lemma filter_evChdir_nil (p : Event → Bool) (hp : ∀ d, p (.Chdir d) = false)
    (f : Flags) : (evChdir f).filter p = [] := by
  unfold evChdir
  split <;> simp [hp]

lemma filter_isSelect_selEvents (f : Flags) (w : World) (fs : Filesys) :
    (selEvents f w fs).filter Event.isSelect = [.SelectCache (selCache f w fs)] := by
  unfold selEvents selCache
  split <;> simp [Event.isSelect]

lemma filter_isLoadEnv_selEvents (f : Flags) (w : World) (fs : Filesys) :
    (selEvents f w fs).filter Event.isLoadEnv =
      if f.repoMode then [.LoadEnv] else [] := by
  unfold selEvents
  split <;> simp_all [Event.isLoadEnv]

/-- C4: the cache strategy is selected at most once per run; with
`repoMode` false no environment load (store open) ever happens and any
selected cache is the lazy directory-keyed strategy over the filesystem
abstraction; with `repoMode` true any selected cache is the Singleton
strategy wrapping the store of the environment loaded — validly — at the
working directory, and the store is opened exactly once. -/
theorem cache_selection_C4 (f : Flags) (w : World) :
    ((run f w).1.filter Event.isSelect).length ≤ 1
  ∧ (f.repoMode = false →
       Event.LoadEnv ∉ (run f w).1
     ∧ ∀ c, Event.SelectCache c ∈ (run f w).1 →
         ∃ fs, w.localFilesys = .ok fs ∧ c = NewLocalCSCache fs)
  ∧ (f.repoMode = true →
       ∀ c, Event.SelectCache c ∈ (run f w).1 →
         ∃ fs, w.localFilesys = .ok fs ∧ (w.envLoad fs).valid = true
           ∧ c = DBCache.SingletonCSCache ((w.envLoad fs).store)
           ∧ ((run f w).1.filter Event.isLoadEnv).length = 1) := by
  have hchd : ∀ d, Event.isSelect (.Chdir d) = false := fun _ => rfl
  have hchd2 : ∀ d, Event.isLoadEnv (.Chdir d) = false := fun _ => rfl
  rcases run_spec f w with ⟨x, hd, _, heq⟩ | ⟨x, _, heq⟩ | ⟨g, x, _, _, heq⟩ |
    ⟨_, heq⟩ | ⟨fs, hfs, hrt, hinv, heq⟩ | ⟨g, h2, fs, msg, hfs, hvr, heq⟩ |
    ⟨g, h2, fs, hfs, _, _, hvr, heq⟩
  · refine ⟨?_, fun _ => ⟨?_, fun c hc => ?_⟩, fun _ c hc => ?_⟩ <;>
      (try rw [heq] at hc) <;> (try rw [heq])
    · simp [Event.isSelect]
    · simp
    · simp at hc
    · simp at hc
  · refine ⟨?_, fun _ => ⟨?_, fun c hc => ?_⟩, fun _ c hc => ?_⟩ <;>
      (try rw [heq] at hc) <;> (try rw [heq])
    · simp [List.filter_append, filter_evChdir_nil _ hchd, Event.isSelect]
    · simp
      exact not_mem_evChdir rfl
    · simp at hc
      exact absurd hc (not_mem_evChdir rfl)
    · simp at hc
      exact absurd hc (not_mem_evChdir rfl)
  · refine ⟨?_, fun _ => ⟨?_, fun c hc => ?_⟩, fun _ c hc => ?_⟩ <;>
      (try rw [heq] at hc) <;> (try rw [heq])
    · simp [List.filter_append, filter_evChdir_nil _ hchd, Event.isSelect]
    · simp
      exact not_mem_evChdir rfl
    · simp at hc
      exact absurd hc (not_mem_evChdir rfl)
    · simp at hc
      exact absurd hc (not_mem_evChdir rfl)
  · refine ⟨?_, fun _ => ⟨?_, fun c hc => ?_⟩, fun _ c hc => ?_⟩ <;>
      (try rw [heq] at hc) <;> (try rw [heq])
    · simp [List.filter_append, filter_evChdir_nil _ hchd, Event.isSelect]
    · simp
      exact not_mem_evChdir rfl
    · simp at hc
      exact absurd hc (not_mem_evChdir rfl)
    · simp at hc
      exact absurd hc (not_mem_evChdir rfl)
  · refine ⟨?_, fun hr0 => ⟨?_, fun c hc => ?_⟩, fun _ c hc => ?_⟩
    · rw [heq]
      simp [List.filter_append, filter_evChdir_nil _ hchd, Event.isSelect]
    · rw [hr0] at hrt; cases hrt
    · rw [hr0] at hrt; cases hrt
    · rw [heq] at hc
      simp at hc
      exact absurd hc (not_mem_evChdir rfl)
  · refine ⟨?_, fun hr0 => ⟨?_, fun c hc => ?_⟩, fun hr1 c hc => ?_⟩
    · rw [heq]
      simp [List.filter_append, filter_evChdir_nil _ hchd,
        filter_isSelect_selEvents, Event.isSelect]
    · rw [heq]
      rw [selEvents_repo_false f w fs hr0]
      simp
      exact not_mem_evChdir rfl
    · rw [heq] at hc
      rw [selEvents_repo_false f w fs hr0] at hc
      simp at hc
      rcases hc with hc | hc
      · exact absurd hc (not_mem_evChdir rfl)
      · exact ⟨fs, hfs, hc⟩
    · rw [heq] at hc
      rw [selEvents_repo_true f w fs hr1] at hc
      simp at hc
      rcases hc with hc | hc
      · exact absurd hc (not_mem_evChdir rfl)
      · refine ⟨fs, hfs, hvr hr1, hc, ?_⟩
        rw [heq]
        simp [List.filter_append, filter_evChdir_nil _ hchd2,
          filter_isLoadEnv_selEvents, hr1, Event.isLoadEnv]
  · refine ⟨?_, fun hr0 => ⟨?_, fun c hc => ?_⟩, fun hr1 c hc => ?_⟩
    · rw [heq]
      simp [List.filter_append, filter_evChdir_nil _ hchd,
        filter_isSelect_selEvents, Event.isSelect]
    · rw [heq]
      rw [selEvents_repo_false f w fs hr0]
      simp
      exact not_mem_evChdir rfl
    · rw [heq] at hc
      rw [selEvents_repo_false f w fs hr0] at hc
      simp at hc
      rcases hc with hc | hc
      · exact absurd hc (not_mem_evChdir rfl)
      · exact ⟨fs, hfs, hc⟩
    · rw [heq] at hc
      rw [selEvents_repo_true f w fs hr1] at hc
      simp at hc
      rcases hc with hc | hc
      · exact absurd hc (not_mem_evChdir rfl)
      · refine ⟨fs, hfs, hvr hr1, hc, ?_⟩
        rw [heq]
        simp [List.filter_append, filter_evChdir_nil _ hchd2,
          filter_isLoadEnv_selEvents, hr1, Event.isLoadEnv]

/-- Flags selecting repo-mode, otherwise default. -/
def fRepo : Flags :=
  { defaultFlags with repoMode := true }

/-- Witness for C4: in repo-mode against a valid environment, the selected
cache is the Singleton strategy over the loaded store, opened once. -/
theorem cache_selection_C4_witness :
    ∃ fs, wOK.localFilesys = .ok fs ∧ (wOK.envLoad fs).valid = true
      ∧ DBCache.SingletonCSCache 7 = DBCache.SingletonCSCache ((wOK.envLoad fs).store)
      ∧ ((run fRepo wOK).1.filter Event.isLoadEnv).length = 1 :=
  (cache_selection_C4 fRepo wOK).2.2 rfl (DBCache.SingletonCSCache 7) (by decide)

lemma not_mem_selEvents {e : Event} {f : Flags} {w : World} {fs : Filesys}
    (hne : Event.isSelect e = false) (hne2 : Event.isLoadEnv e = false) :
    e ∉ selEvents f w fs := by
  intro h
  rcases mem_selEvents h with ⟨_, h | h⟩ | ⟨_, h⟩ <;> subst h <;>
    simp [Event.isLoadEnv, Event.isSelect] at hne hne2

/-- C5: in repo-mode, when the environment loaded at the working directory
is invalid, `run` ends in the fatal repository error before any server is
constructed or serving starts. -/
theorem repo_invalid_fatal_C5 (f : Flags) (w : World) (fs : Filesys)
    (hchdir : 0 < f.dir.length → w.chdir f.dir = .ok ())
    (hg : ∃ g, resolveIP w.net f.grpcAddr = .ok g)
    (hh : ∃ h, resolveIP w.net f.httpAddr = .ok h)
    (hfs : w.localFilesys = .ok fs)
    (hrepo : f.repoMode = true)
    (hinvalid : (w.envLoad fs).valid = false) :
    (run f w).2 = .fatal "repo-mode failed to load repository"
  ∧ (∀ args, Event.NewServer args ∉ (run f w).1)
  ∧ Event.StartServe ∉ (run f w).1 := by
  obtain ⟨g, hg⟩ := hg
  obtain ⟨h2, hh⟩ := hh
  have heq : run f w =
      ((evChdir f ++ [.ResolveGrpc f.grpcAddr, .ResolveHttp f.httpAddr]) ++ [.LoadEnv],
       .fatal "repo-mode failed to load repository") := by
    rw [run_eq_runAddrs f w hchdir]
    unfold runAddrs
    rw [hg]
    dsimp only
    rw [hh]
    dsimp only
    unfold runCacheSel
    rw [hfs]
    dsimp only
    rw [hrepo]
    simp [hinvalid]
  refine ⟨by rw [heq], fun args hmem => ?_, fun hmem => ?_⟩
  · rw [heq] at hmem
    simp at hmem
    exact absurd hmem (not_mem_evChdir rfl)
  · rw [heq] at hmem
    simp at hmem
    exact absurd hmem (not_mem_evChdir rfl)

/-- A world whose environment load yields an invalid repository. -/
def wBadEnv : World :=
  { wOK with envLoad := fun _ => { valid := false, store := 0 } }

/-- Witness for C5: repo-mode over an invalid repository is fatal with no
server construction and no serving. -/
theorem repo_invalid_fatal_C5_witness :
    (run fRepo wBadEnv).2 = .fatal "repo-mode failed to load repository"
  ∧ (∀ args, Event.NewServer args ∉ (run fRepo wBadEnv).1)
  ∧ Event.StartServe ∉ (run fRepo wBadEnv).1 :=
  repo_invalid_fatal_C5 fRepo wBadEnv ⟨0⟩
    (fun hcontra => absurd hcontra (by decide))
    ⟨"localhost:50051", rfl⟩ ⟨"localhost:80", rfl⟩ rfl rfl rfl

/-- Discriminator: does this event drive the lifecycle scanner? -/
def Event.isLifecycle : Event → Bool
  | .StartServe => true
  | .WaitSignal => true
  | .GracefulStop => true
  | _ => false

lemma lifecycleCheck_append (l t : List Event) (a b c : Bool)
    (hl : ∀ e ∈ l, Event.isLifecycle e = false) :
    lifecycleCheck (l ++ t) a b c = lifecycleCheck t a b c := by
  induction l with
  | nil => rfl
  | cons e rest ih =>
    have he := hl e (by simp)
    have hrest : ∀ x ∈ rest, Event.isLifecycle x = false :=
      fun x hx => hl x (by simp [hx])
    cases e <;> simp [Event.isLifecycle] at he <;>
      simpa [lifecycleCheck] using ih hrest

lemma lifecycleCheck_neutral (l : List Event) (a b c : Bool)
    (hl : ∀ e ∈ l, Event.isLifecycle e = false) :
    lifecycleCheck l a b c = true := by
  have := lifecycleCheck_append l [] a b c hl
  simpa using this

lemma isLifecycle_false_evChdir {e : Event} {f : Flags} (h : e ∈ evChdir f) :
    Event.isLifecycle e = false := by
  rw [(mem_evChdir h).1]; rfl

lemma isLifecycle_false_selEvents {e : Event} {f : Flags} {w : World} {fs : Filesys}
    (h : e ∈ selEvents f w fs) : Event.isLifecycle e = false := by
  rcases mem_selEvents h with ⟨_, h | h⟩ | ⟨_, h⟩ <;> subst h <;> rfl

lemma filter_isStop_selEvents (f : Flags) (w : World) (fs : Filesys) :
    (selEvents f w fs).filter Event.isStop = [] := by
  unfold selEvents
  split <;> simp [Event.isStop]

/-- C6: in every run of the lifecycle controller, graceful stop is never
invoked before serving has started, serving is never restarted once the
stop sequence begins, graceful stop only follows the signal wait and
happens at most once — and on the normal path it happens exactly once. -/
theorem lifecycle_order_C6 (f : Flags) (w : World) :
    lifecycleCheck ((run f w).1) false false false = true
  ∧ ((run f w).2 = Outcome.ok →
       ((run f w).1.filter Event.isStop).length = 1) := by
  rcases run_spec f w with ⟨x, hd, _, heq⟩ | ⟨x, _, heq⟩ | ⟨g, x, _, _, heq⟩ |
    ⟨_, heq⟩ | ⟨fs, _, _, _, heq⟩ | ⟨g, h2, fs, msg, _, _, heq⟩ |
    ⟨g, h2, fs, _, _, _, _, heq⟩
  · refine ⟨by rw [heq]; rfl, ?_⟩
    rw [heq]
    intro h
    simp at h
  · refine ⟨?_, ?_⟩ <;> rw [heq]
    · apply lifecycleCheck_neutral
      intro e he
      simp at he
      rcases he with he | he
      · exact isLifecycle_false_evChdir he
      · subst he; rfl
    · intro h; simp at h
  · refine ⟨?_, ?_⟩ <;> rw [heq]
    · apply lifecycleCheck_neutral
      intro e he
      simp at he
      rcases he with he | he | he
      · exact isLifecycle_false_evChdir he
      · subst he; rfl
      · subst he; rfl
    · intro h; simp at h
  · refine ⟨?_, ?_⟩ <;> rw [heq]
    · apply lifecycleCheck_neutral
      intro e he
      simp at he
      rcases he with he | he | he
      · exact isLifecycle_false_evChdir he
      · subst he; rfl
      · subst he; rfl
    · intro h; simp at h
  · refine ⟨?_, ?_⟩ <;> rw [heq]
    · apply lifecycleCheck_neutral
      intro e he
      simp at he
      rcases he with he | he | he | he
      · exact isLifecycle_false_evChdir he
      · subst he; rfl
      · subst he; rfl
      · subst he; rfl
    · intro h; simp at h
  · refine ⟨?_, ?_⟩ <;> rw [heq]
    · apply lifecycleCheck_neutral
      intro e he
      simp at he
      rcases he with he | he | he | he | he
      · exact isLifecycle_false_evChdir he
      · subst he; rfl
      · subst he; rfl
      · exact isLifecycle_false_selEvents he
      · subst he; rfl
    · intro h; simp at h
  · refine ⟨?_, ?_⟩ <;> rw [heq]
    · rw [show evChdir f ++ [Event.ResolveGrpc f.grpcAddr, Event.ResolveHttp f.httpAddr]
            ++ selEvents f w fs
            ++ [Event.NewServer (mkArgs f g h2 fs (selCache f w fs)),
                Event.BindListeners, Event.StartServe, Event.WaitSignal,
                Event.GracefulStop]
          = evChdir f ++ ([Event.ResolveGrpc f.grpcAddr, Event.ResolveHttp f.httpAddr]
            ++ (selEvents f w fs
            ++ [Event.NewServer (mkArgs f g h2 fs (selCache f w fs)),
                Event.BindListeners, Event.StartServe, Event.WaitSignal,
                Event.GracefulStop])) from by simp]
      rw [lifecycleCheck_append _ _ _ _ _ (fun e he => isLifecycle_false_evChdir he)]
      rw [lifecycleCheck_append _ _ _ _ _ (by
        intro e he
        simp at he
        rcases he with he | he <;> subst he <;> rfl)]
      rw [lifecycleCheck_append _ _ _ _ _ (fun e he => isLifecycle_false_selEvents he)]
      rfl
    · intro _
      simp [List.filter_append, filter_evChdir_nil Event.isStop (fun _ => rfl),
        filter_isStop_selEvents, Event.isStop]

/-- Witness for C6: the normal lifecycle invokes graceful stop exactly
once. -/
theorem lifecycle_order_C6_witness :
    ((run defaultFlags wOK).1.filter Event.isStop).length = 1 :=
  (lifecycle_order_C6 defaultFlags wOK).2 rfl

/-- C7: whenever the graceful stop step is reached, `run` returns `nil`
and the process exits with status zero; `main`'s error-logging fatal path
is taken exactly when `run` returned a non-nil error. -/
theorem graceful_nil_exit_C7 (f : Flags) (w : World) :
    (Event.GracefulStop ∈ (run f w).1 →
       (run f w).2 = Outcome.ok ∧ (mainFn f w).2 = ProcessExit.exitZero)
  ∧ (∀ e, (mainFn f w).2 = ProcessExit.exitMainError e →
       (run f w).2 = Outcome.err e) := by
  constructor
  · intro hmem
    rcases run_spec f w with ⟨x, hd, _, heq⟩ | ⟨x, _, heq⟩ | ⟨g, x, _, _, heq⟩ |
      ⟨_, heq⟩ | ⟨fs, _, _, _, heq⟩ | ⟨g, h2, fs, msg, _, _, heq⟩ |
      ⟨g, h2, fs, _, _, _, _, heq⟩
    · rw [heq] at hmem; simp at hmem
    · rw [heq] at hmem; simp at hmem
      exact absurd hmem (not_mem_evChdir rfl)
    · rw [heq] at hmem; simp at hmem
      exact absurd hmem (not_mem_evChdir rfl)
    · rw [heq] at hmem; simp at hmem
      exact absurd hmem (not_mem_evChdir rfl)
    · rw [heq] at hmem; simp at hmem
      exact absurd hmem (not_mem_evChdir rfl)
    · rw [heq] at hmem; simp at hmem
      rcases hmem with hmem | hmem
      · exact absurd hmem (not_mem_evChdir rfl)
      · exact absurd hmem (not_mem_selEvents rfl rfl)
    · refine ⟨by rw [heq], ?_⟩
      unfold mainFn
      rw [heq]
  · intro e hm
    unfold mainFn at hm
    cases hrun : run f w with
    | mk evs out =>
      rw [hrun] at hm
      cases out with
      | ok => exact absurd hm (by simp)
      | err e2 =>
        dsimp only at hm
        have he2 : e2 = e := by injection hm
        rw [he2]
      | fatal m => exact absurd hm (by simp)

/-- Witness for C7: the default successful run reaches graceful stop,
returns `nil` and exits with status zero. -/
theorem graceful_nil_exit_C7_witness :
    (run defaultFlags wOK).2 = Outcome.ok
  ∧ (mainFn defaultFlags wOK).2 = ProcessExit.exitZero :=
  (graceful_nil_exit_C7 defaultFlags wOK).1 (by decide)

/-- C9: the grpc address is resolved strictly before the http address:
when the grpc spec is invalid, `run` returns the error wrapped with
`parse grpc addr` and no http resolution step ever occurs. -/
theorem grpc_before_http_C9 (f : Flags) (w : World) (e : ResolveError)
    (hchdir : 0 < f.dir.length → w.chdir f.dir = .ok ())
    (hg : resolveIP w.net f.grpcAddr = .error e) :
    (run f w).2 = .err (.wrapped "parse grpc addr" e)
  ∧ ∀ s, Event.ResolveHttp s ∉ (run f w).1 := by
  have heq : run f w =
      (evChdir f ++ [.ResolveGrpc f.grpcAddr],
       .err (.wrapped "parse grpc addr" e)) := by
    rw [run_eq_runAddrs f w hchdir]
    unfold runAddrs
    rw [hg]
  refine ⟨by rw [heq], fun s hmem => ?_⟩
  rw [heq] at hmem
  simp at hmem
  exact absurd hmem (not_mem_evChdir rfl)

/-- Flags in which both address specs are invalid (empty host). -/
def fBadBoth : Flags :=
  { defaultFlags with grpcAddr := ":50051", httpAddr := ":80" }

/-- Witness for C9: with both specs invalid, the reported error concerns
the grpc address and the http spec is never examined. -/
theorem grpc_before_http_C9_witness :
    (run fBadBoth wOK).2 = .err (.wrapped "parse grpc addr" .EmptyHostError)
  ∧ Event.ResolveHttp ":80" ∉ (run fBadBoth wOK).1 :=
  ⟨(grpc_before_http_C9 fBadBoth wOK .EmptyHostError
      (fun h => absurd h (by decide)) rfl).1,
   (grpc_before_http_C9 fBadBoth wOK .EmptyHostError
      (fun h => absurd h (by decide)) rfl).2 ":80"⟩
